import Mathlib

/-!
Shallow embedding of the marriage-backend event/permission/ledger core
(EventController, familyController, and the mongoose models), together
with theorems checking the natural-language specification against it.

Conventions of the embedding:
* Mongo ObjectIds are modelled as `Nat`.
* Dates are modelled as `Nat` timestamps supplied to each operation as a
  `now` parameter; `Date#toLocaleString` is modelled as `toString`.
* Amounts are modelled as `Int` (the cited code only stores amounts; it
  never performs arithmetic on them).
* A mongoose collection is a `List` of documents; `findOne`/`findById`
  is `List.find?`; `document.save()` replaces the document with the same
  `_id`; `create`/`insertMany` appends.  Fresh `_id`s generated by Mongo
  are passed in as `freshId` parameters.
* `Except ApiError` models the HTTP error responses (404/403/400/422).
-/

/-- Grant levels from `familyPermissionSchema`
(`enum: ["read", "write", "owner"]` in models/FamilyPermission.js). -/
inductive Perm where
  | read
  | write
  | owner
deriving DecidableEq, Repr

/-- The `required` argument of `checkAccess` (`"read" | "write"`). -/
inductive Req where
  | read
  | write
deriving DecidableEq, Repr

/-- A `FamilyPermission` document: (owner, member) → grant level. -/
structure Grant where
  owner_id : Nat
  member_id : Nat
  permission : Perm
deriving DecidableEq, Repr

/-- An `Event` document (fields of `eventSchema` in models/Event.js). -/
structure MEvent where
  id : Nat
  user_id : Nat
  event_name : Option String
  contact_mobile : Option String
  booking_total_value : Option Int
  advance_payment : Int
  payment_method : Option String
  notes : Option String
  category_id : Option Nat
  created_by : Option Nat
  status : Nat
  priority : String
  is_deleted : Bool
  deleted_at : Option Nat
deriving DecidableEq, Repr

/-- A `Transaction` document.  `transactionSchema` (models/Transaction.js)
declares `event_id, added_by, amount, payment_method, reference, note,
deleted_at` and NO `old_transaction_id` path; the field is carried here so
properties about it can be stated, and the modelled `Transaction.create`
always stores `none` for it because mongoose strict mode (the default)
silently discards values for paths absent from the schema. -/
structure Txn where
  id : Nat
  event_id : Nat
  added_by : Option Nat
  amount : Int
  payment_method : Option String
  reference : Option String
  note : Option String
  deleted_at : Option Nat
  old_transaction_id : Option Nat
deriving DecidableEq, Repr

/-- A `Notification` document (models/Notification.js). -/
structure Notif where
  user_id : Nat
  title : String
  message : String
  is_read : Bool
deriving DecidableEq, Repr

/-- A `Category` document, as used by `createEvent`
(name, `status: 1`, `is_deleted: false` on creation). -/
structure Category where
  id : Nat
  name : String
  status : Nat
  is_deleted : Bool
deriving DecidableEq, Repr

/-- The persistent store: one list per mongoose collection. -/
structure Store where
  grants : List Grant
  events : List MEvent
  txns : List Txn
  notifs : List Notif
  categories : List Category
deriving Repr

/-- HTTP-level failures returned by the controllers:
404 → `notFound`, 403 → `forbidden`, 400 → `badRequest`, 422 → `validation`. -/
inductive ApiError where
  | notFound (msg : String)
  | forbidden (msg : String)
  | badRequest (msg : String)
  | validation (msg : String)
deriving DecidableEq, Repr

/-- Model of `FamilyPermission.findOne({ owner_id: ownerId, member_id: memberId })`. -/
def famFindOne (grants : List Grant) (ownerId memberId : Nat) : Option Grant :=
  grants.find? (fun g => g.owner_id == ownerId && g.member_id == memberId)

/-- Model of `checkAccess(memberId, ownerId, required)` — the access resolver of
EventController (part_000 lines 71–86): direct owner always true; else look
up the grant for the pair; `owner` level is full access; `write` satisfies
read and write; `read` satisfies only read. -/
def checkAccess (grants : List Grant) (memberId ownerId : Nat) (required : Req) : Bool :=
  if memberId == ownerId then true
  else
    match famFindOne grants ownerId memberId with
    | none => false
    | some perm =>
      if perm.permission == Perm.owner then true
      else if required == Req.read
          && (perm.permission == Perm.read || perm.permission == Perm.write) then true
      else if required == Req.write && perm.permission == Perm.write then true
      else false

/-- The effective-owner resolution inlined in `createEvent` (lines 290–295)
and `updateEventStatusPriority` (lines 417–422):
`FamilyPermission.findOne({ member_id: user._id })`, falling back to the
user's own id when no membership grant exists. -/
def resolveEffectiveOwner (grants : List Grant) (userId : Nat) : Nat :=
  match grants.find? (fun g => g.member_id == userId) with
  | some fp => fp.owner_id
  | none => userId

/-- Model of `Event.findById(id)`.  The `pre(/^find/)` hook of `eventSchema`
(models/Event.js lines 36–42) adds `is_deleted: false` to every find query
that does not carry `includeDeleted`, so a soft-deleted event is invisible
to `findById`. -/
def eventFindById (st : Store) (eventId : Nat) : Option MEvent :=
  st.events.find? (fun e => e.id == eventId && e.is_deleted == false)

/-- Model of `Event.findOne({ _id: id, user_id: ownerId })` as used by
`updateEventStatusPriority`; the same `pre(/^find/)` hook applies. -/
def eventFindByIdOwner (st : Store) (eventId ownerId : Nat) : Option MEvent :=
  st.events.find? (fun e => e.id == eventId && e.user_id == ownerId && e.is_deleted == false)

/-- Model of `Transaction.findOne({ _id: paymentId, event_id: eventId })`.
`transactionSchema` installs no query hook, so soft-deleted transactions
are found like any other: there is no `deleted_at` filter. -/
def txnFindOne (st : Store) (paymentId eventId : Nat) : Option Txn :=
  st.txns.find? (fun t => t.id == paymentId && t.event_id == eventId)

/-- Model of `document.save()` for an event: replace the stored document with the
same `_id`. -/
def saveEvent (st : Store) (e : MEvent) : Store :=
  { st with events := st.events.map (fun x => if x.id == e.id then e else x) }

/-- Model of `document.save()` for a transaction. -/
def saveTxn (st : Store) (t : Txn) : Store :=
  { st with txns := st.txns.map (fun x => if x.id == t.id then t else x) }

/-- The JS idiom `ref ? ref + " | " + reason : reason` used when stamping
soft-deleted transactions (an empty string is falsy in JS). -/
def appendAudit (ref : Option String) (reason : String) : String :=
  match ref with
  | some r => if r = "" then reason else r ++ " | " ++ reason
  | none => reason

/-- JS template interpolation of a possibly-null value. -/
def optStr (s : Option String) : String := s.getD "null"

/-- Model of `[...new Set(xs)]`: de-duplication keeping first occurrences. -/
def jsSetDedupAux : List Nat → List Nat → List Nat
  | [], _ => []
  | x :: xs, seen => if x ∈ seen then jsSetDedupAux xs seen else x :: jsSetDedupAux xs (x :: seen)

/-- Model of `[...new Set(xs)]` over user-id arrays. -/
def jsSetDedup (xs : List Nat) : List Nat := jsSetDedupAux xs []

/-- The notification audience computation duplicated inline in `addPayment`
(part_000 lines 1034–1050) and `updateEventStatusPriority` (lines 478–493):
members granted `owner` or `write` under the event's stored owner, plus the
owner itself, de-duplicated, with the acting user removed. -/
def fanoutRecipients (grants : List Grant) (eventOwner actor : Nat) : List Nat :=
  let familyMembers := grants.filter
    (fun g => g.owner_id == eventOwner && (g.permission == Perm.owner || g.permission == Perm.write))
  let userIdsToNotify := eventOwner :: familyMembers.map (·.member_id)
  (jsSetDedup userIdsToNotify).filter (fun uid => uid != actor)

/-- Model of `NotificationModel.insertMany(uniqueUserIds.map(uid => ({...})))`. -/
def mkNotifs (recipients : List Nat) (title message : String) : List Notif :=
  recipients.map (fun uid => { user_id := uid, title := title, message := message, is_read := false })

/-- Model of `getEvents` (part_000 lines 106–182).  Sorting (`createdAt` desc for
events, asc for transactions) is presentational and omitted; lists keep
store order.  Returns each visible event paired with its visible
transaction list. -/
def getEvents (st : Store) (user : Nat) : List (MEvent × List Txn) :=
  let familyPerms := st.grants.filter (fun g => g.member_id == user)
  let ownerIdsWithAccess := familyPerms.map (·.owner_id)
  let ownerIdsWithFullAccess :=
    (familyPerms.filter (fun g => g.permission == Perm.owner)).map (·.owner_id)
  let events := st.events.filter
    (fun e => (e.user_id == user || ownerIdsWithAccess.contains e.user_id) && e.is_deleted == false)
  let eventIds := events.map (·.id)
  let isMainOwner := familyPerms.isEmpty
  let hasOwnerPermission :=
    isMainOwner || familyPerms.any (fun g => g.permission == Perm.owner)
      || !ownerIdsWithFullAccess.isEmpty
  let transactions := st.txns.filter
    (fun t => eventIds.contains t.event_id && t.deleted_at == none
      && (hasOwnerPermission || t.added_by == some user))
  events.map (fun e =>
    let eventTransactions :=
      if hasOwnerPermission then
        transactions.filter (fun t => t.event_id == e.id)
      else
        transactions.filter (fun t => t.event_id == e.id && t.added_by == some user)
    (e, eventTransactions))

/-- Request body of `createEvent` after destructuring (defaults as in the
source: `advance_payment = 0`, `payment_method = null`, `notes = null`,
`priority = "medium"`).  `none` for a required field models a missing key. -/
structure CreateEventBody where
  event_name : Option String
  contact_mobile : Option String
  booking_total_value : Option Int
  advance_payment : Int := 0
  payment_method : Option String := none
  notes : Option String := none
  category_name : Option String
  priority : String := "medium"
deriving Repr

/-- Model of `createEvent` (part_000 lines 229–353): validation, effective-owner
resolution, write authorization, category find-or-create, event creation
(status defaults to 1 per `eventSchema`), and the initial advance-payment
transaction when `advance_payment > 0`. -/
def createEvent (st : Store) (user : Nat) (body : CreateEventBody)
    (freshCatId freshEventId freshTxId : Nat) : Except ApiError (Store × MEvent) :=
  match body.event_name with
  | none => .error (.validation "event_name is required and must be a string (max 255)")
  | some eventName =>
    if eventName.length > 255 then
      .error (.validation "event_name is required and must be a string (max 255)")
    else match body.contact_mobile with
    | none => .error (.validation "contact_mobile is required and must be a string (max 20)")
    | some contactMobile =>
      if contactMobile.length > 20 then
        .error (.validation "contact_mobile is required and must be a string (max 20)")
      else match body.booking_total_value with
      | none => .error (.validation "booking_total_value is required and must be >= 0")
      | some btv =>
        if btv < 0 then
          .error (.validation "booking_total_value is required and must be >= 0")
        else if body.advance_payment < 0 then
          .error (.validation "advance_payment must be >= 0")
        else match body.category_name with
        | none => .error (.validation "category_name is required and must be a string")
        | some categoryName =>
          if !(body.priority == "low" || body.priority == "medium" || body.priority == "high") then
            .error (.validation "priority must be one of: low, medium, high")
          else
            let ownerId := resolveEffectiveOwner st.grants user
            if !(checkAccess st.grants user ownerId Req.write) then
              .error (.forbidden "You do not have permission to create an event (read-only access)")
            else
              let found := st.categories.find?
                (fun c => c.name == categoryName.trim && c.is_deleted == false)
              let newCat : Category := { id := freshCatId, name := categoryName.trim,
                                         status := 1, is_deleted := false }
              let stCat : Store := match found with
                | some _ => st
                | none => { st with categories := st.categories ++ [newCat] }
              let category : Category := match found with
                | some c => c
                | none => newCat
              let ev : MEvent := {
                id := freshEventId, user_id := ownerId,
                event_name := some eventName, contact_mobile := some contactMobile,
                booking_total_value := some btv, advance_payment := body.advance_payment,
                payment_method := body.payment_method, notes := body.notes,
                category_id := some category.id, created_by := some user,
                status := 1, priority := body.priority,
                is_deleted := false, deleted_at := none }
              let stEv := { stCat with events := stCat.events ++ [ev] }
              let stTx :=
                if body.advance_payment > 0 then
                  { stEv with txns := stEv.txns ++ [{
                      id := freshTxId, event_id := ev.id, added_by := some user,
                      amount := body.advance_payment, payment_method := body.payment_method,
                      reference := none, note := some "Advance payment (initial)",
                      deleted_at := none, old_transaction_id := none }] }
                else stEv
              .ok (stTx, ev)


/-- The status clause of the notification message built by
`updateEventStatusPriority` (`statusMap` plus the special-cased texts). -/
def statusClause (s : Nat) : String :=
  if s == 2 then "completed the event"
  else if s == 1 then "marked as pending"
  else if s == 0 then "set to inactive"
  else "status updated to " ++ toString s

/-- The notification message of `updateEventStatusPriority`:
parts for the provided fields joined with ", ", wrapped as
`"<fullname> <event_name>: <parts>."`. -/
def espMessage (fullname : String) (eventName : Option String)
    (status : Option Nat) (priority : Option String) : String :=
  let parts :=
    (match status with | some s => [statusClause s] | none => []) ++
    (match priority with | some p => ["priority set to " ++ p] | none => [])
  fullname ++ " " ++ optStr eventName ++ ": " ++ String.intercalate ", " parts ++ "."

/-- Model of `updateEventStatusPriority` (part_000 lines 392–561): validates the
optional `status`/`priority`, resolves the effective owner, authorizes
write, loads the event scoped to `(id, owner)` (not-found on mismatch),
applies only the provided fields, saves, computes the fan-out audience,
persists one notification per recipient, and attempts the push send.
The controller's `event.updated_by = user._id` assignment targets a path
absent from `eventSchema` and is dropped by mongoose strict mode.  The
result carries the updated event and the notified user ids (the response
body also survives a push failure; see `addPayment` for the sink model). -/
def updateEventStatusPriority (st : Store) (user : Nat) (userFullname : String)
    (eventId : Nat) (status : Option Nat) (priority : Option String) :
    Except ApiError (Store × MEvent × List Nat) :=
  if status == none && priority == none then
    .error (.badRequest "Please provide at least one field to update: status or priority")
  else if (match status with
            | some s => !(s == 0 || s == 1 || s == 2)
            | none => false) then
    .error (.validation "Invalid status (must be 0, 1, or 2)")
  else if (match priority with
            | some p => !(p == "low" || p == "medium" || p == "high")
            | none => false) then
    .error (.validation "Invalid priority (must be low, medium, or high)")
  else
    let ownerId := resolveEffectiveOwner st.grants user
    if !(checkAccess st.grants user ownerId Req.write) then
      .error (.forbidden "You do not have permission to update this event (read-only access)")
    else
      match eventFindByIdOwner st eventId ownerId with
      | none => .error (.notFound "Event not found or access denied")
      | some event =>
        let event1 := match status with
          | some s => { event with status := s }
          | none => event
        let event2 := match priority with
          | some p => { event1 with priority := p }
          | none => event1
        let st1 := saveEvent st event2
        let message := espMessage userFullname event.event_name status priority
        let recipients := fanoutRecipients st1.grants event.user_id user
        let st2 := { st1 with
          notifs := st1.notifs ++ mkNotifs recipients "Event Updated" message }
        .ok (st2, event2, recipients)

/-- A `req.body` patch for `updateEvent`'s `Object.assign(event, req.body)`.
`some v` means the key is present.  Only schema paths take effect under
mongoose strict mode, so exactly the `eventSchema` fields appear here
(`_id` is immutable and omitted); present values are modelled as non-null. -/
structure EventPatch where
  user_id : Option Nat := none
  event_name : Option String := none
  contact_mobile : Option String := none
  booking_total_value : Option Int := none
  advance_payment : Option Int := none
  payment_method : Option String := none
  notes : Option String := none
  category_id : Option Nat := none
  created_by : Option Nat := none
  status : Option Nat := none
  priority : Option String := none
  is_deleted : Option Bool := none
  deleted_at : Option Nat := none
deriving Repr

/-- Model of `Object.assign(event, patch)`: every key present in the patch
overwrites the corresponding event field. -/
def applyPatch (e : MEvent) (p : EventPatch) : MEvent :=
  { e with
    user_id := p.user_id.getD e.user_id,
    event_name := (p.event_name.map some).getD e.event_name,
    contact_mobile := (p.contact_mobile.map some).getD e.contact_mobile,
    booking_total_value := (p.booking_total_value.map some).getD e.booking_total_value,
    advance_payment := p.advance_payment.getD e.advance_payment,
    payment_method := (p.payment_method.map some).getD e.payment_method,
    notes := (p.notes.map some).getD e.notes,
    category_id := (p.category_id.map some).getD e.category_id,
    created_by := (p.created_by.map some).getD e.created_by,
    status := p.status.getD e.status,
    priority := p.priority.getD e.priority,
    is_deleted := p.is_deleted.getD e.is_deleted,
    deleted_at := (p.deleted_at.map some).getD e.deleted_at }

/-- Model of `updateEvent` (part_000 lines 643–659): load by id (soft-deleted events
are invisible via the find hook), authorize write against the event's
stored owner, `Object.assign` the body onto the document, save. -/
def updateEvent (st : Store) (user : Nat) (eventId : Nat) (patch : EventPatch) :
    Except ApiError (Store × MEvent) :=
  match eventFindById st eventId with
  | none => .error (.notFound "Event not found")
  | some event =>
    if !(checkAccess st.grants user event.user_id Req.write) then
      .error (.forbidden "Permission denied")
    else
      let event1 := applyPatch event patch
      .ok (saveEvent st event1, event1)

/-- Model of `deleteEvent` (part_000 lines 684–713): load by id (the find hook hides
soft-deleted events), authorize write, reject with 400 "Event already
deleted" when the flag is set, else stamp `is_deleted` and `deleted_at`. -/
def deleteEvent (st : Store) (user : Nat) (eventId : Nat) (now : Nat) :
    Except ApiError Store :=
  match eventFindById st eventId with
  | none => .error (.notFound "Event not found")
  | some event =>
    if !(checkAccess st.grants user event.user_id Req.write) then
      .error (.forbidden "Permission denied")
    else if event.is_deleted then
      .error (.badRequest "Event already deleted")
    else
      .ok (saveEvent st { event with is_deleted := true, deleted_at := some now })

/-- Request body of `addPayment`. -/
structure AddPaymentBody where
  amount : Int
  payment_method : Option String := none
  reference : Option String := none
  note : Option String := none
deriving Repr

/-- Model of `addPayment` (part_000 lines 1008–1112): load the event, authorize
write against its stored owner, create the transaction, compute the
fan-out audience, persist one notification per recipient, then attempt the
OneSignal push.  The push call sits in a try/catch whose failure is only
logged: `pushOk` models the sink outcome and is returned as the last
component; the stored data and the 201 success response (transaction plus
recipient list) do not depend on it. -/
def addPayment (st : Store) (user : Nat) (userFullname : String) (eventId : Nat)
    (body : AddPaymentBody) (freshTxId : Nat) (pushOk : Bool) :
    Except ApiError (Store × Txn × List Nat × Bool) :=
  match eventFindById st eventId with
  | none => .error (.notFound "Event not found")
  | some event =>
    if !(checkAccess st.grants user event.user_id Req.write) then
      .error (.forbidden "Permission denied")
    else
      let txn : Txn := {
        id := freshTxId, event_id := eventId, added_by := some user,
        amount := body.amount, payment_method := body.payment_method,
        reference := body.reference, note := body.note,
        deleted_at := none, old_transaction_id := none }
      let st1 := { st with txns := st.txns ++ [txn] }
      let message := userFullname ++ " added a payment of ₹" ++ toString body.amount
        ++ " for " ++ optStr event.event_name ++ "."
      let recipients := fanoutRecipients st1.grants event.user_id user
      let st2 := { st1 with
        notifs := st1.notifs ++ mkNotifs recipients "New Payment Added" message }
      .ok (st2, txn, recipients, pushOk)

/-- Patch body of `updatePayment`; `x ?? old` keeps the old value when the
key is absent (or null). -/
structure PaymentPatch where
  amount : Option Int := none
  payment_method : Option String := none
  reference : Option String := none
  note : Option String := none
deriving Repr

/-- Model of `updatePayment` (part_000 lines 1202–1252): load the event, authorize
write, find the transaction scoped to `(paymentId, eventId)` (no
`deleted_at` filter exists in the query), stamp its `deleted_at` and audit
reference, save it, then create the successor.  The create call passes
`old_transaction_id: transaction._id`, but `transactionSchema` declares no
such path, so mongoose strict mode discards it and the stored successor
has no back-reference (modelled as `none`). -/
def updatePayment (st : Store) (user : Nat) (eventId paymentId : Nat)
    (patch : PaymentPatch) (now : Nat) (freshTxId : Nat) :
    Except ApiError (Store × Txn) :=
  match eventFindById st eventId with
  | none => .error (.notFound "Event not found")
  | some event =>
    if !(checkAccess st.grants user event.user_id Req.write) then
      .error (.forbidden "Permission denied")
    else
      match txnFindOne st paymentId eventId with
      | none => .error (.notFound "Transaction not found")
      | some txn =>
        let deleteReason := "Soft deleted because user requested update at " ++ toString now
        let txn1 := { txn with
          deleted_at := some now,
          reference := some (appendAudit txn.reference deleteReason) }
        let st1 := saveTxn st txn1
        let newReference := match patch.reference with
          | some r =>
            if r = "" then "Soft deleted transaction id: " ++ toString txn.id
            else r ++ " | Soft deleted transaction id: " ++ toString txn.id
          | none => "Soft deleted transaction id: " ++ toString txn.id
        let newTxn : Txn := {
          id := freshTxId, event_id := eventId, added_by := some user,
          amount := patch.amount.getD txn.amount,
          payment_method := (patch.payment_method.map some).getD txn.payment_method,
          note := (patch.note.map some).getD txn.note,
          reference := some newReference,
          deleted_at := none,
          old_transaction_id := none }
        .ok ({ st1 with txns := st1.txns ++ [newTxn] }, newTxn)

/-- Model of `deletePayment` (part_000 lines 1296–1333): load the event, authorize
write, find the transaction scoped to `(paymentId, eventId)` (again with no
`deleted_at` filter), stamp `deleted_at = now`, append the audit reason to
`reference`, save.  No replacement record is created. -/
def deletePayment (st : Store) (user : Nat) (eventId paymentId : Nat) (now : Nat) :
    Except ApiError (Store × Txn) :=
  match eventFindById st eventId with
  | none => .error (.notFound "Event not found")
  | some event =>
    if !(checkAccess st.grants user event.user_id Req.write) then
      .error (.forbidden "Permission denied")
    else
      match txnFindOne st paymentId eventId with
      | none => .error (.notFound "Transaction not found")
      | some txn =>
        let deleteReason := "Soft deleted by user at " ++ toString now
        let txn1 := { txn with
          deleted_at := some now,
          reference := some (appendAudit txn.reference deleteReason) }
        .ok (saveTxn st txn1, txn1)

/-- The spec's balance observable: the sum of `amount` over the event's
transactions with `deleted_at = null` (not computed anywhere in the cited
code; it is the property the ledger protocol is meant to preserve). -/
def activeSum (st : Store) (eventId : Nat) : Int :=
  ((st.txns.filter (fun t => t.event_id == eventId && t.deleted_at == none)).map
    (fun t => t.amount)).sum

/-- The owner-identity observable for C5: each stored event's `_id`
paired with its `user_id`. -/
def ownersMap (st : Store) : List (Nat × Nat) :=
  st.events.map (fun e => (e.id, e.user_id))

/-- C1: `checkAccess(A, O, r)` is true exactly when A equals O, or a grant
`(owner_id = O, member_id = A)` exists at level `owner` or `write`, or
`r = read` and such a grant exists at level `read`; false in every other
case.  The hypothesis is the store invariant that the (owner, member) pair
is unique (grants are written with upsert semantics). -/
theorem c1_checkAccess_iff (grants : List Grant) (a o : Nat) (r : Req)
    (huniq : ∀ g1 ∈ grants, ∀ g2 ∈ grants,
      g1.owner_id = g2.owner_id → g1.member_id = g2.member_id → g1 = g2) :
    checkAccess grants a o r = true ↔
      (a = o ∨ ∃ g ∈ grants, g.owner_id = o ∧ g.member_id = a ∧
        (g.permission = Perm.owner ∨ g.permission = Perm.write ∨
          (r = Req.read ∧ g.permission = Perm.read))) := by
  unfold checkAccess famFindOne
  by_cases hao : a = o
  · simp [hao]
  · have hbeq : (a == o) = false := by simpa using hao
    rw [hbeq]
    simp only [Bool.false_eq_true, if_false]
    cases hfind : grants.find? (fun g => g.owner_id == o && g.member_id == a) with
    | none =>
      simp only [Bool.false_eq_true, false_iff]
      intro hcase
      rcases hcase with h | ⟨g, hg, hgo, hgm, _⟩
      · exact hao h
      · have := List.find?_eq_none.mp hfind g hg
        simp [hgo, hgm] at this
    | some perm =>
      dsimp only
      have hmem : perm ∈ grants := List.mem_of_find?_eq_some hfind
      have hpred := List.find?_some hfind
      simp only [Bool.and_eq_true, beq_iff_eq] at hpred
      have hpo : perm.owner_id = o := hpred.1
      have hpm : perm.member_id = a := hpred.2
      constructor
      · intro h
        refine Or.inr ⟨perm, hmem, hpo, hpm, ?_⟩
        cases hperm : perm.permission <;> cases r <;>
          first
            | (simp [hperm]; done)
            | (rw [hperm] at h; exact absurd h (by decide))
      · intro h
        rcases h with h | ⟨g, hg, hgo, hgm, hlev⟩
        · exact absurd h hao
        · have hgp : g = perm := huniq g hg perm hmem (by rw [hgo, hpo]) (by rw [hgm, hpm])
          subst hgp
          rcases hlev with h1 | h1 | ⟨hr, h1⟩
          · rw [h1]; cases r <;> decide
          · rw [h1]; cases r <;> decide
          · subst hr; rw [h1]; decide

/-- Witness for C1 at a concrete store: user 2 holds a `write` grant under
owner 1, so write access to owner 1 resolves true via the grant clause. -/
theorem c1_checkAccess_iff_witness :
    checkAccess [⟨1, 2, Perm.write⟩] 2 1 Req.write = true ↔
      (2 = 1 ∨ ∃ g ∈ [(⟨1, 2, Perm.write⟩ : Grant)], g.owner_id = 1 ∧ g.member_id = 2 ∧
        (g.permission = Perm.owner ∨ g.permission = Perm.write ∨
          (Req.write = Req.read ∧ g.permission = Perm.read))) :=
  c1_checkAccess_iff [⟨1, 2, Perm.write⟩] 2 1 Req.write
    (by intro g1 h1 g2 h2 _ _; simp at h1 h2; rw [h1, h2])

/-- Facts provided by a successful `eventFindById`: membership, matching
id, and (because of the soft-delete find hook) `is_deleted = false`. -/
theorem eventFindById_spec {st : Store} {eid : Nat} {e : MEvent}
    (h : eventFindById st eid = some e) :
    e ∈ st.events ∧ e.id = eid ∧ e.is_deleted = false := by
  have hmem := List.mem_of_find?_eq_some h
  have hp := List.find?_some h
  simp only [Bool.and_eq_true, beq_iff_eq] at hp
  exact ⟨hmem, hp.1, hp.2⟩

/-- Facts provided by a successful `eventFindByIdOwner`. -/
theorem eventFindByIdOwner_spec {st : Store} {eid oid : Nat} {e : MEvent}
    (h : eventFindByIdOwner st eid oid = some e) :
    e ∈ st.events ∧ e.id = eid ∧ e.user_id = oid ∧ e.is_deleted = false := by
  have hmem := List.mem_of_find?_eq_some h
  have hp := List.find?_some h
  simp only [Bool.and_eq_true, beq_iff_eq] at hp
  exact ⟨hmem, hp.1.1, hp.1.2, hp.2⟩

/-- Facts provided by a successful `txnFindOne`: membership and matching
ids — note there is no fact about `deleted_at`. -/
theorem txnFindOne_spec {st : Store} {pid eid : Nat} {t : Txn}
    (h : txnFindOne st pid eid = some t) :
    t ∈ st.txns ∧ t.id = pid ∧ t.event_id = eid := by
  have hmem := List.mem_of_find?_eq_some h
  have hp := List.find?_some h
  simp only [Bool.and_eq_true, beq_iff_eq] at hp
  exact ⟨hmem, hp.1, hp.2⟩

/-- When a filter keeps exactly one element, `find?` returns it. -/
theorem find?_of_filter_eq_singleton {α : Type} {p : α → Bool} {l : List α} {x : α}
    (h : l.filter p = [x]) : l.find? p = some x := by
  induction l with
  | nil => simp at h
  | cons a t ih =>
    rw [List.filter_cons] at h
    by_cases hp : p a
    · rw [if_pos hp] at h
      simp only [List.cons.injEq] at h
      rw [List.find?_cons_of_pos _ hp, h.1]
    · rw [if_neg hp] at h
      rw [List.find?_cons_of_neg _ hp]
      exact ih h

/-- C7: the effective-owner resolution used by `createEvent` and
`updateEventStatusPriority`: a user with no membership grant is their own
owner; a user with exactly one membership grant writes under that grant's
owner regardless of its level; and both operations file the write under
the resolved owner (`createEvent` creates the event with that `user_id`;
`updateEventStatusPriority` only touches an event with that `user_id`). -/
theorem c7_effectiveOwner_filing (st : Store) (u : Nat) :
    ((st.grants.filter (fun g => g.member_id == u)) = [] →
        resolveEffectiveOwner st.grants u = u)
    ∧ (∀ g0, (st.grants.filter (fun g => g.member_id == u)) = [g0] →
        resolveEffectiveOwner st.grants u = g0.owner_id)
    ∧ (∀ body fc fe ft st1 ev, createEvent st u body fc fe ft = .ok (st1, ev) →
        ev.user_id = resolveEffectiveOwner st.grants u)
    ∧ (∀ fullname eid status priority st1 ev rec,
        updateEventStatusPriority st u fullname eid status priority = .ok (st1, ev, rec) →
        ev.user_id = resolveEffectiveOwner st.grants u) := by
  refine ⟨?_, ?_, ?_, ?_⟩
  · intro hnil
    unfold resolveEffectiveOwner
    rw [List.find?_eq_none.mpr]
    intro g hg
    have := List.filter_eq_nil_iff.mp hnil g hg
    simpa using this
  · intro g0 hone
    unfold resolveEffectiveOwner
    rw [find?_of_filter_eq_singleton hone]
  · intro body fc fe ft st1 ev hok
    unfold createEvent at hok
    repeat'
      first
        | split at hok
        | simp only [reduceCtorEq] at hok
    all_goals
      simp only [Except.ok.injEq, Prod.mk.injEq] at hok
      obtain ⟨-, hev⟩ := hok
      subst hev
      rfl
  · intro fullname eid status priority st1 ev rec hok
    unfold updateEventStatusPriority at hok
    repeat'
      first
        | split at hok
        | simp only [reduceCtorEq] at hok
    all_goals
      rename_i event hfind
      simp only [Except.ok.injEq, Prod.mk.injEq] at hok
      obtain ⟨-, hev, -⟩ := hok
      have hu := (eventFindByIdOwner_spec hfind).2.2.1
      subst hev
      exact hu

/-- Witness for C7: with the single grant (owner 1, member 2, write),
user 2 resolves to owner 1 and grant-free user 3 resolves to itself. -/
theorem c7_effectiveOwner_filing_witness :
    resolveEffectiveOwner [⟨1, 2, Perm.write⟩] 2 = 1 ∧
    resolveEffectiveOwner [⟨1, 2, Perm.write⟩] 3 = 3 := by
  constructor
  · exact (c7_effectiveOwner_filing ⟨[⟨1, 2, Perm.write⟩], [], [], [], []⟩ 2).2.1
      ⟨1, 2, Perm.write⟩ (by decide)
  · exact (c7_effectiveOwner_filing ⟨[⟨1, 2, Perm.write⟩], [], [], [], []⟩ 3).1 (by decide)

/-- Membership in the JS-Set de-duplication with an accumulator of
already-seen elements. -/
theorem mem_jsSetDedupAux (x : Nat) (l : List Nat) :
    ∀ seen, x ∈ jsSetDedupAux l seen ↔ (x ∈ l ∧ x ∉ seen) := by
  induction l with
  | nil => intro seen; simp [jsSetDedupAux]
  | cons a t ih =>
    intro seen
    unfold jsSetDedupAux
    by_cases ha : a ∈ seen
    · rw [if_pos ha, ih seen]
      simp only [List.mem_cons]
      constructor
      · rintro ⟨hx, hns⟩
        exact ⟨Or.inr hx, hns⟩
      · rintro ⟨rfl | hx, hns⟩
        · exact absurd ha hns
        · exact ⟨hx, hns⟩
    · rw [if_neg ha]
      simp only [List.mem_cons, ih (a :: seen)]
      constructor
      · rintro (rfl | ⟨hx, hns⟩)
        · exact ⟨Or.inl rfl, ha⟩
        · exact ⟨Or.inr hx, fun hseen => hns (Or.inr hseen)⟩
      · rintro ⟨rfl | hx, hns⟩
        · exact Or.inl rfl
        · by_cases hxa : x = a
          · exact Or.inl hxa
          · exact Or.inr ⟨hx, fun hmem => hmem.elim hxa hns⟩

/-- Membership in `[...new Set(xs)]` is membership in `xs`. -/
theorem mem_jsSetDedup (x : Nat) (l : List Nat) : x ∈ jsSetDedup l ↔ x ∈ l := by
  unfold jsSetDedup
  rw [mem_jsSetDedupAux]
  simp

/-- The user ids of an inserted notification batch are the recipient list. -/
theorem mkNotifs_user_ids (r : List Nat) (t m : String) :
    (mkNotifs r t m).map (fun n => n.user_id) = r := by
  induction r with
  | nil => rfl
  | cons a s ih => simpa [mkNotifs] using ih

/-- C4: for the fan-outs triggered by `addPayment` and
`updateEventStatusPriority`, the persisted notification audience is exactly
the de-duplicated set {stored event owner} ∪ {members granted `owner` or
`write` under that owner} minus the acting user: the actor is never
notified and read-only members are never in the audience. -/
theorem c4_fanout_audience :
    (∀ (grants : List Grant) (eventOwner actor u : Nat),
       u ∈ fanoutRecipients grants eventOwner actor ↔
         ((u = eventOwner ∨ ∃ g ∈ grants, g.owner_id = eventOwner ∧ g.member_id = u ∧
             (g.permission = Perm.owner ∨ g.permission = Perm.write)) ∧ u ≠ actor))
    ∧ (∀ st user fullname eid body fid po st2 txn rec po2 ev,
         eventFindById st eid = some ev →
         addPayment st user fullname eid body fid po = .ok (st2, txn, rec, po2) →
         rec = fanoutRecipients st.grants ev.user_id user ∧
         st2.notifs.map (fun n => n.user_id) = st.notifs.map (fun n => n.user_id) ++ rec)
    ∧ (∀ st user fullname eid s p st2 ev2 rec,
         updateEventStatusPriority st user fullname eid s p = .ok (st2, ev2, rec) →
         rec = fanoutRecipients st.grants ev2.user_id user ∧
         st2.notifs.map (fun n => n.user_id) = st.notifs.map (fun n => n.user_id) ++ rec) := by
  refine ⟨?_, ?_, ?_⟩
  · intro grants eo actor u
    unfold fanoutRecipients
    simp only [List.mem_filter, mem_jsSetDedup, List.mem_cons, List.mem_map,
      List.mem_filter, Bool.and_eq_true, Bool.or_eq_true, beq_iff_eq, bne_iff_ne, ne_eq]
    constructor
    · rintro ⟨h | ⟨g, ⟨hgmem, hgo, hperm⟩, hgm⟩, hne⟩
      · exact ⟨Or.inl h, hne⟩
      · exact ⟨Or.inr ⟨g, hgmem, hgo, hgm, hperm⟩, hne⟩
    · rintro ⟨h | ⟨g, hgmem, hgo, hgm, hperm⟩, hne⟩
      · exact ⟨Or.inl h, hne⟩
      · exact ⟨Or.inr ⟨g, ⟨hgmem, hgo, hperm⟩, hgm⟩, hne⟩
  · intro st user fullname eid body fid po st2 txn rec po2 ev hev hok
    unfold addPayment at hok
    rw [hev] at hok
    dsimp only at hok
    cases hacc : checkAccess st.grants user ev.user_id Req.write with
    | false =>
      rw [if_pos (by rw [hacc]; rfl)] at hok
      exact absurd hok (by simp)
    | true =>
      rw [if_neg (by rw [hacc]; simp)] at hok
      simp only [Except.ok.injEq, Prod.mk.injEq] at hok
      obtain ⟨hst, -, hrec, -⟩ := hok
      refine ⟨hrec.symm, ?_⟩
      rw [← hst, ← hrec]
      simp only [List.map_append]
      rw [mkNotifs_user_ids]
  · intro st user fullname eid s p st2 ev2 rec hok
    unfold updateEventStatusPriority at hok
    repeat'
      first
        | split at hok
        | simp only [reduceCtorEq] at hok
    all_goals
      rename_i event hfind
      simp only [Except.ok.injEq, Prod.mk.injEq] at hok
      obtain ⟨hst, hev2, hrec⟩ := hok
      subst hev2
      refine ⟨hrec.symm, ?_⟩
      rw [← hst, ← hrec]
      simp only [List.map_append]
      rw [mkNotifs_user_ids]
      rfl

/-- Concrete event used by the witnesses: id 1, owned by user 1. -/
def wEvent : MEvent := {
  id := 1, user_id := 1, event_name := none, contact_mobile := none,
  booking_total_value := some 5000, advance_payment := 1000,
  payment_method := none, notes := none, category_id := none,
  created_by := some 1, status := 1, priority := "m",
  is_deleted := false, deleted_at := none }

/-- Concrete transaction used by the witnesses: id 1 on event 1,
added by user 1, amount 1000, not deleted. -/
def wTxn : Txn := {
  id := 1, event_id := 1, added_by := some 1, amount := 1000,
  payment_method := none, reference := none, note := none,
  deleted_at := none, old_transaction_id := none }

/-- Concrete store used by the witnesses: owner 1; member 2 holds a
`write` grant and member 3 a `read` grant under owner 1; one event and
one active transaction. -/
def wStore : Store := {
  grants := [⟨1, 2, Perm.write⟩, ⟨1, 3, Perm.read⟩],
  events := [wEvent],
  txns := [wTxn],
  notifs := [], categories := [] }

/-- The transaction created by the witness `addPayment` run. -/
def wPayTxn : Txn := {
  id := 2, event_id := 1, added_by := some 1, amount := 500,
  payment_method := none, reference := none, note := none,
  deleted_at := none, old_transaction_id := none }

/-- The store after the witness `addPayment` run by owner 1: the new
transaction is appended and member 2 (the only write-level member other
than the actor) got a notification. -/
def wPayStore : Store := {
  grants := wStore.grants,
  events := wStore.events,
  txns := wStore.txns ++ [wPayTxn],
  notifs := [{ user_id := 2, title := "New Payment Added",
               message := "A added a payment of ₹500 for null.", is_read := false }],
  categories := [] }

/-- Witness for C4 at the concrete store: owner 1 adds a payment; the
audience is exactly [2] (member 2 holds `write`; member 3 holds only
`read`; the actor 1 is excluded), and the persisted notification user ids
are exactly that audience. -/
theorem c4_fanout_audience_witness :
    ((2 : Nat) ∈ fanoutRecipients wStore.grants 1 1 ↔
      (((2 : Nat) = 1 ∨ ∃ g ∈ wStore.grants, g.owner_id = 1 ∧ g.member_id = 2 ∧
          (g.permission = Perm.owner ∨ g.permission = Perm.write)) ∧ (2 : Nat) ≠ 1))
    ∧ ([2] = fanoutRecipients wStore.grants wEvent.user_id 1
        ∧ wPayStore.notifs.map (fun n => n.user_id)
            = wStore.notifs.map (fun n => n.user_id) ++ [2]) := by
  constructor
  · exact c4_fanout_audience.1 wStore.grants 1 1 2
  · exact c4_fanout_audience.2.1 wStore 1 "A" 1 { amount := 500 } 2 true
      wPayStore wPayTxn [2] true wEvent rfl rfl

/-- C9: once `addPayment` has created the transaction and persisted the
notification batch, the OneSignal push outcome (modelled by `pushOk`) has
no influence on the stored data or on the success response: for either
sink outcome the operation returns 201 with the created transaction and
the recipient list, and the store — transaction appended, notifications
kept — is identical; push failure is never the operation's failure. -/
theorem c9_push_failure_soft (st : Store) (user : Nat) (fullname : String) (eid : Nat)
    (body : AddPaymentBody) (fid : Nat) (ev : MEvent)
    (hev : eventFindById st eid = some ev)
    (hacc : checkAccess st.grants user ev.user_id Req.write = true) (pushOk : Bool) :
    addPayment st user fullname eid body fid pushOk
      = .ok ({ grants := st.grants, events := st.events,
               txns := st.txns ++ [⟨fid, eid, some user, body.amount, body.payment_method,
                                    body.reference, body.note, none, none⟩],
               notifs := st.notifs ++ mkNotifs (fanoutRecipients st.grants ev.user_id user)
                   "New Payment Added"
                   (fullname ++ " added a payment of ₹" ++ toString body.amount
                     ++ " for " ++ optStr ev.event_name ++ "."),
               categories := st.categories },
             ⟨fid, eid, some user, body.amount, body.payment_method,
              body.reference, body.note, none, none⟩,
             fanoutRecipients st.grants ev.user_id user, pushOk) := by
  unfold addPayment
  rw [hev]
  dsimp only
  rw [if_neg (by rw [hacc]; simp)]

/-- Witness for C9: the concrete `addPayment` by owner 1 with a failed
push sink still succeeds with the transaction stored and member 2
notified. -/
theorem c9_push_failure_soft_witness :
    addPayment wStore 1 "A" 1 { amount := 500 } 2 false
      = .ok (wPayStore, wPayTxn, [2], false) :=
  c9_push_failure_soft wStore 1 "A" 1 { amount := 500 } 2 wEvent rfl rfl false

/-- C10: `deletePayment` applied to an already soft-deleted transaction
succeeds again: the lookup has no `deleted_at` filter, so the call
overwrites `deleted_at` with the new timestamp, appends a further
"Soft deleted by user at <timestamp>" audit suffix to the reference
(joined with " | ") and returns 200 with the re-deleted transaction. -/
theorem c10_redelete_succeeds (st : Store) (user eid pid now d : Nat)
    (ev : MEvent) (t0 : Txn) (r : String)
    (hev : eventFindById st eid = some ev)
    (hacc : checkAccess st.grants user ev.user_id Req.write = true)
    (htxn : txnFindOne st pid eid = some t0)
    (hdel : t0.deleted_at = some d)
    (href : t0.reference = some r) (hr : r ≠ "") :
    deletePayment st user eid pid now =
      .ok (saveTxn st { t0 with
              deleted_at := some now,
              reference := some (r ++ " | " ++ ("Soft deleted by user at " ++ toString now)) },
           { t0 with
              deleted_at := some now,
              reference := some (r ++ " | " ++ ("Soft deleted by user at " ++ toString now)) }) := by
  have ha : appendAudit t0.reference ("Soft deleted by user at " ++ toString now)
      = r ++ " | " ++ ("Soft deleted by user at " ++ toString now) := by
    rw [href]
    unfold appendAudit
    dsimp only
    rw [if_neg hr]
  unfold deletePayment
  rw [hev]
  dsimp only
  rw [if_neg (by rw [hacc]; simp)]
  rw [htxn]
  dsimp only
  rw [ha]

/-- The witness transaction already soft-deleted at time 5 with a
non-empty reference. -/
def wTxnDel : Txn := { wTxn with deleted_at := some 5, reference := some "x" }

/-- The witness store whose only transaction is already soft-deleted. -/
def wStoreDel : Store := { wStore with txns := [wTxnDel] }

/-- Witness for C10: re-deleting the already-deleted transaction at time 9
succeeds, overwrites `deleted_at` to 9 and appends the audit suffix. -/
theorem c10_redelete_succeeds_witness :
    deletePayment wStoreDel 1 1 1 9 =
      .ok (saveTxn wStoreDel { wTxnDel with
              deleted_at := some 9,
              reference := some ("x" ++ " | " ++ ("Soft deleted by user at " ++ toString (9 : Nat))) },
           { wTxnDel with
              deleted_at := some 9,
              reference := some ("x" ++ " | " ++ ("Soft deleted by user at " ++ toString (9 : Nat))) }) :=
  c10_redelete_succeeds wStoreDel 1 1 1 9 5 wEvent wTxnDel "x" rfl rfl rfl rfl rfl
    (by decide)

/-- Supporting fact for C6: the "Event already deleted" 400 branch of
`deleteEvent` is dead code — `findById` goes through the soft-delete find
hook, so the loaded event always has `is_deleted = false` and the branch
can never be taken. -/
theorem deleteEvent_conflict_unreachable (st : Store) (u i n : Nat) :
    deleteEvent st u i n ≠ .error (.badRequest "Event already deleted") := by
  intro h
  unfold deleteEvent at h
  cases hfind : eventFindById st i with
  | none =>
    rw [hfind] at h
    exact absurd h (by simp)
  | some ev =>
    rw [hfind] at h
    dsimp only at h
    have hdel := (eventFindById_spec hfind).2.2
    rw [hdel] at h
    cases hacc : checkAccess st.grants u ev.user_id Req.write with
    | false =>
      rw [if_pos (by rw [hacc]; rfl)] at h
      simp at h
    | true =>
      rw [if_neg (by rw [hacc]; simp)] at h
      simp at h

/-- C6 (code bug): soft-deleting the same event twice.  The first call by
the write-authorized owner succeeds and stamps the flags, but the second
call fails with 404 "Event not found" — not the "already deleted" 400
conflict the code's own (dead) branch was written for — because the
soft-delete find hook hides the deleted event from `findById`; the event's
`is_deleted` stays true. -/
theorem c6_double_delete_behaviour :
    (deleteEvent wStore 1 1 10).map
        (fun s => (deleteEvent s 1 1 11, s.events.map (fun e => e.is_deleted)))
      = .ok (.error (.notFound "Event not found"), [true]) := rfl

/-- Saving an event that keeps the id and owner of the stored document it
replaces preserves the owner map (ids are unique in the store). -/
theorem ownersMap_saveEvent {st : Store} {e0 e1 : MEvent}
    (hmem : e0 ∈ st.events)
    (huniq : ∀ x ∈ st.events, ∀ y ∈ st.events, x.id = y.id → x = y)
    (hid : e1.id = e0.id) (hu : e1.user_id = e0.user_id) :
    ownersMap (saveEvent st e1) = ownersMap st := by
  unfold ownersMap saveEvent
  dsimp only
  rw [List.map_map]
  apply List.map_congr_left
  intro x hx
  by_cases hxe : (x.id == e1.id) = true
  · have hxid : x.id = e0.id := by rw [← hid]; exact beq_iff_eq.mp hxe
    have hxe0 : x = e0 := huniq x hx e0 hmem hxid
    simp only [Function.comp, hxe, if_true, if_pos]
    rw [hid, hu, hxe0]
  · simp only [Function.comp, hxe]
    rw [if_neg (by simp [hxe])]

/-- C5 (amended): the owner identity of every stored event is preserved by
`updateStatusAndPriority`, `softDelete` and all payment operations, and by
`updateEvent` whenever the patch does not contain `user_id`; the original
claim fails only because `updateEvent` assigns the request body verbatim,
so a patch containing `user_id` does change the owner. -/
theorem c5_owner_preserved_amended (st : Store)
    (huniq : ∀ x ∈ st.events, ∀ y ∈ st.events, x.id = y.id → x = y) :
    (∀ user fullname eid s p st1 ev rec,
       updateEventStatusPriority st user fullname eid s p = .ok (st1, ev, rec) →
       ownersMap st1 = ownersMap st)
    ∧ (∀ user eid now st1,
       deleteEvent st user eid now = .ok st1 → ownersMap st1 = ownersMap st)
    ∧ (∀ user eid patch st1 ev, patch.user_id = none →
       updateEvent st user eid patch = .ok (st1, ev) → ownersMap st1 = ownersMap st)
    ∧ (∀ user fullname eid body fid po st1 t rec po2,
       addPayment st user fullname eid body fid po = .ok (st1, t, rec, po2) →
       ownersMap st1 = ownersMap st)
    ∧ (∀ user eid pid patch now fid st1 t,
       updatePayment st user eid pid patch now fid = .ok (st1, t) →
       ownersMap st1 = ownersMap st)
    ∧ (∀ user eid pid now st1 t,
       deletePayment st user eid pid now = .ok (st1, t) →
       ownersMap st1 = ownersMap st) := by
  refine ⟨?_, ?_, ?_, ?_, ?_, ?_⟩
  · intro user fullname eid s p st1 ev rec hok
    unfold updateEventStatusPriority at hok
    repeat'
      first
        | split at hok
        | simp only [reduceCtorEq] at hok
    all_goals
      rename_i event hfind
      simp only [Except.ok.injEq, Prod.mk.injEq] at hok
      obtain ⟨hst, -, -⟩ := hok
      rw [← hst]
      exact ownersMap_saveEvent (eventFindByIdOwner_spec hfind).1 huniq rfl rfl
  · intro user eid now st1 hok
    unfold deleteEvent at hok
    repeat'
      first
        | split at hok
        | simp only [reduceCtorEq] at hok
    all_goals
      rename_i event hfind hacc hdel
      simp only [Except.ok.injEq] at hok
      rw [← hok]
      exact ownersMap_saveEvent (eventFindById_spec hfind).1 huniq rfl rfl
  · intro user eid patch st1 ev hp hok
    unfold updateEvent at hok
    repeat'
      first
        | split at hok
        | simp only [reduceCtorEq] at hok
    all_goals
      rename_i event hfind hacc
      simp only [Except.ok.injEq, Prod.mk.injEq] at hok
      obtain ⟨hst, -⟩ := hok
      rw [← hst]
      exact ownersMap_saveEvent (eventFindById_spec hfind).1 huniq rfl
        (by simp [applyPatch, hp])
  · intro user fullname eid body fid po st1 t rec po2 hok
    unfold addPayment at hok
    repeat'
      first
        | split at hok
        | simp only [reduceCtorEq] at hok
    all_goals
      simp only [Except.ok.injEq, Prod.mk.injEq] at hok
      obtain ⟨hst, -, -, -⟩ := hok
      rw [← hst]
      rfl
  · intro user eid pid patch now fid st1 t hok
    unfold updatePayment at hok
    repeat'
      first
        | split at hok
        | simp only [reduceCtorEq] at hok
    all_goals
      simp only [Except.ok.injEq, Prod.mk.injEq] at hok
      obtain ⟨hst, -⟩ := hok
      rw [← hst]
      rfl
  · intro user eid pid now st1 t hok
    unfold deletePayment at hok
    repeat'
      first
        | split at hok
        | simp only [reduceCtorEq] at hok
    all_goals
      simp only [Except.ok.injEq, Prod.mk.injEq] at hok
      obtain ⟨hst, -⟩ := hok
      rw [← hst]
      rfl

/-- Counterexample to C5 as stated: `updateEvent` applies the request body
verbatim, so the patch `{ user_id: 2 }` by owner 1 on the concrete store
moves event 1 from owner 1 to owner 2. -/
theorem c5_counterexample :
    ownersMap wStore = [(1, 1)]
    ∧ (updateEvent wStore 1 1 { user_id := some 2 }).map (fun p => ownersMap p.1)
        = .ok [(1, 2)] := ⟨rfl, rfl⟩

/-- Witness for C5 (amended) at the concrete store: the soft delete of
event 1 by owner 1 keeps the owner map unchanged. -/
theorem c5_owner_preserved_amended_witness :
    ownersMap (saveEvent wStore { wEvent with is_deleted := true, deleted_at := some 10 })
      = ownersMap wStore :=
  (c5_owner_preserved_amended wStore (by decide)).2.1 1 1 10
    (saveEvent wStore { wEvent with is_deleted := true, deleted_at := some 10 }) rfl

/-- The active-amount sum of a filtered list as a sum of pointwise
contributions. -/
theorem filter_map_sum_eq (p : Txn → Bool) (l : List Txn) :
    ((l.filter p).map (fun t => t.amount)).sum
      = (l.map (fun t => if p t then t.amount else 0)).sum := by
  induction l with
  | nil => rfl
  | cons a t ih =>
    rw [List.filter_cons]
    by_cases hp : p a
    · rw [if_pos hp]
      simp only [List.map_cons, List.sum_cons, ih, if_pos hp]
    · rw [if_neg hp]
      simp only [List.map_cons, List.sum_cons, ih, if_neg hp]
      rw [zero_add]

/-- The same contribution sum with the condition stated as a
proposition. -/
theorem filter_map_sum_eq_prop (l : List Txn) (eid : Nat) :
    ((l.filter (fun t => t.event_id == eid && t.deleted_at == none)).map
        (fun t => t.amount)).sum
      = (l.map (fun t => if t.event_id = eid ∧ t.deleted_at = none
          then t.amount else 0)).sum := by
  rw [filter_map_sum_eq]
  congr 1
  apply List.map_congr_left
  intro x hx
  dsimp only
  by_cases h : (x.event_id == eid && x.deleted_at == none) = true
  · rw [if_pos h, if_pos (by simpa using h)]
  · rw [if_neg h, if_neg (by simpa using h)]

/-- Replacing the unique transaction carrying a given id changes a
pointwise contribution sum exactly by the delta at that transaction. -/
theorem contribSum_replace (f : Txn → Int) (l : List Txn) (T T1 : Txn) (i : Nat)
    (hmem : T ∈ l) (hnodup : (l.map (fun t => t.id)).Nodup)
    (hi : i = T.id) :
    ((l.map (fun x => if x.id == i then T1 else x)).map f).sum
      = (l.map f).sum - f T + f T1 := by
  subst hi
  induction l with
  | nil => simp at hmem
  | cons a t ih =>
    simp only [List.map_cons, List.nodup_cons, List.mem_map, not_exists, not_and] at hnodup
    obtain ⟨hna, hnt⟩ := hnodup
    rcases List.mem_cons.mp hmem with rfl | hmemT
    · have hh : (T.id == T.id) = true := beq_self_eq_true T.id
      have htail : t.map (fun x => if x.id == T.id then T1 else x) = t := by
        have hcongr := List.map_congr_left (l := t)
          (f := fun x => if x.id == T.id then T1 else x) (g := id)
          (fun x hx => by
            dsimp only [id]
            rw [if_neg (by
              simp only [beq_iff_eq]
              intro hxid
              exact hna x hx hxid)])
        rw [hcongr, List.map_id]
      simp only [List.map_cons, List.sum_cons, hh, if_true, htail]
      ring
    · have hha : (a.id == T.id) = false := by
        simp only [beq_eq_false_iff_ne, ne_eq]
        intro haid
        exact hna T hmemT haid.symm
      simp only [List.map_cons, List.sum_cons, hha, Bool.false_eq_true, if_false,
        ih hmemT hnt]
      ring

/-- C2 (amended): replacing a non-deleted transaction creates exactly one
successor whose `amount`, `payment_method` and `note` default to the
predecessor's values when absent from the patch; the predecessor is
stamped `deleted_at = now` with an audit reference and the active balance
becomes the previous sum minus the old amount plus the new amount.  The
successor's link to the predecessor survives only inside its reference
string (which ends with the predecessor's id); the persisted
`old_transaction_id` is `none`, because `transactionSchema` declares no
such path and mongoose strict mode drops the value the controller passes. -/
theorem c2_replacePayment_amended (st : Store) (user eid pid now fid : Nat)
    (patch : PaymentPatch) (ev : MEvent) (T : Txn)
    (hev : eventFindById st eid = some ev)
    (hacc : checkAccess st.grants user ev.user_id Req.write = true)
    (htxn : txnFindOne st pid eid = some T)
    (hact : T.deleted_at = none)
    (hnodup : (st.txns.map (fun t => t.id)).Nodup) :
    ∃ st1 nt,
      updatePayment st user eid pid patch now fid = .ok (st1, nt)
      ∧ nt.amount = patch.amount.getD T.amount
      ∧ nt.payment_method = (patch.payment_method.map some).getD T.payment_method
      ∧ nt.note = (patch.note.map some).getD T.note
      ∧ nt.old_transaction_id = none
      ∧ nt.deleted_at = none
      ∧ nt ∈ st1.txns
      ∧ (∃ pre, nt.reference = some (pre ++ toString T.id))
      ∧ (∃ T1, T1 ∈ st1.txns ∧ T1.id = T.id ∧ T1.deleted_at = some now
           ∧ T1.amount = T.amount
           ∧ T1.reference = some (appendAudit T.reference
               ("Soft deleted because user requested update at " ++ toString now)))
      ∧ st1.txns.length = st.txns.length + 1
      ∧ activeSum st1 eid = activeSum st eid - T.amount + patch.amount.getD T.amount := by
  have hTmem := (txnFindOne_spec htxn).1
  have hTev := (txnFindOne_spec htxn).2.2
  unfold updatePayment
  rw [hev]
  dsimp only
  rw [if_neg (by rw [hacc]; simp)]
  rw [htxn]
  dsimp only
  refine ⟨_, _, rfl, rfl, rfl, rfl, rfl, rfl, ?_, ?_, ?_, ?_, ?_⟩
  · exact List.mem_append_right _ (List.mem_singleton_self _)
  · cases href : patch.reference with
    | none => exact ⟨"Soft deleted transaction id: ", rfl⟩
    | some r =>
      by_cases hre : r = ""
      · refine ⟨"Soft deleted transaction id: ", ?_⟩
        simp [href, hre]
      · refine ⟨r ++ " | Soft deleted transaction id: ", ?_⟩
        simp [href, hre, String.append_assoc]
  · refine ⟨_, List.mem_append_left _ (List.mem_map_of_mem _ hTmem), ?_, ?_, ?_, ?_⟩ <;>
      simp
  · simp [saveTxn]
  · unfold activeSum saveTxn
    dsimp only
    rw [List.filter_append, List.map_append, List.sum_append]
    rw [filter_map_sum_eq, filter_map_sum_eq]
    rw [contribSum_replace _ _ T { T with
      deleted_at := some now,
      reference := some (appendAudit T.reference
        ("Soft deleted because user requested update at " ++ toString now)) }
      _ hTmem hnodup rfl]
    simp only [List.filter_cons, List.filter_nil]
    simp [hTev, hact]
    exact (filter_map_sum_eq_prop st.txns eid).symm

/-- Counterexample to C2 as stated: in the concrete store, replacing
transaction 1 (amount 1000) with amount 1500 succeeds and the balance
becomes 1500, but the stored successor's `old_transaction_id` does NOT
equal the predecessor's id — the field is dropped because the schema does
not declare it — so the predecessor is not retrievable through it. -/
theorem c2_counterexample :
    (updatePayment wStore 1 1 1 { amount := some 1500 } 7 2).map
        (fun p => (p.2.old_transaction_id == some wTxn.id, p.2.amount, activeSum p.1 1))
      = .ok (false, 1500, 1500) := rfl

/-- Witness for C2 (amended) at the concrete store: replacing transaction 1
(amount 1000) with amount 1500 yields one successor of amount 1500, the
balance 1500 (not 2500), and two stored transactions. -/
theorem c2_replacePayment_amended_witness :
    (updatePayment wStore 1 1 1 { amount := some 1500 } 7 2).map
        (fun p => (p.2.amount, p.2.deleted_at, activeSum p.1 1, p.1.txns.length))
      = .ok (1500, none, 1500, 2) := by
  obtain ⟨st1, nt, h1, -⟩ := c2_replacePayment_amended wStore 1 1 1 7 2
    { amount := some 1500 } wEvent wTxn rfl rfl rfl rfl (by decide)
  rfl

/-- C3 (amended): `replacePayment` scopes its lookup only to the pair
(transactionId, eventId) — there is no `deleted_at` filter — so a call
naming an already soft-deleted transaction does not fail: it succeeds,
re-stamps `deleted_at` with the new timestamp, and chains one more
successor onto the same predecessor; two successive `replacePayment` calls
against one predecessor therefore both create successors. -/
theorem c3_redundant_replace_succeeds (st : Store) (user eid pid now fid d : Nat)
    (patch : PaymentPatch) (ev : MEvent) (T : Txn)
    (hev : eventFindById st eid = some ev)
    (hacc : checkAccess st.grants user ev.user_id Req.write = true)
    (htxn : txnFindOne st pid eid = some T)
    (hdel : T.deleted_at = some d) :
    ∃ st1 nt,
      updatePayment st user eid pid patch now fid = .ok (st1, nt)
      ∧ nt ∈ st1.txns
      ∧ nt.deleted_at = none
      ∧ (∃ pre, nt.reference = some (pre ++ toString T.id))
      ∧ (∃ T1, T1 ∈ st1.txns ∧ T1.id = T.id ∧ T1.deleted_at = some now)
      ∧ st1.txns.length = st.txns.length + 1 := by
  have hTmem := (txnFindOne_spec htxn).1
  unfold updatePayment
  rw [hev]
  dsimp only
  rw [if_neg (by rw [hacc]; simp)]
  rw [htxn]
  dsimp only
  refine ⟨_, _, rfl, ?_, rfl, ?_, ?_, ?_⟩
  · exact List.mem_append_right _ (List.mem_singleton_self _)
  · cases href : patch.reference with
    | none => exact ⟨"Soft deleted transaction id: ", rfl⟩
    | some r =>
      by_cases hre : r = ""
      · refine ⟨"Soft deleted transaction id: ", ?_⟩
        simp [href, hre]
      · refine ⟨r ++ " | Soft deleted transaction id: ", ?_⟩
        simp [href, hre, String.append_assoc]
  · refine ⟨_, List.mem_append_left _ (List.mem_map_of_mem _ hTmem), ?_, ?_⟩ <;> simp
  · simp [saveTxn]

/-- Counterexample to C3 as stated: in the concrete store whose only
transaction is already soft-deleted (`deleted_at = 5`), `replacePayment`
does not fail with not-found or conflict — it succeeds and creates a
second chained successor (the store grows from one to two transactions,
and the returned successor is active). -/
theorem c3_counterexample :
    (updatePayment wStoreDel 1 1 1 {} 9 2).map
        (fun p => (p.1.txns.length, p.2.deleted_at))
      = .ok (2, none) := rfl

/-- Witness for C3 (amended) at the concrete store: the call on the
already-deleted transaction succeeds and the store holds two
transactions. -/
theorem c3_redundant_replace_succeeds_witness :
    (updatePayment wStoreDel 1 1 1 {} 9 2).map
        (fun p => (p.1.txns.length, p.2.deleted_at, p.2.amount))
      = .ok (2, none, 1000) := by
  obtain ⟨st1, nt, h1, -⟩ := c3_redundant_replace_succeeds wStoreDel 1 1 1 9 2 5 {}
    wEvent wTxnDel rfl rfl rfl rfl
  rfl


/-- C8: `getEvents` visibility.  An actor whose membership grants are all
`read`/`write` (at least one grant, none of level `owner`) sees every
accessible non-deleted event, but the attached transaction list is
filtered to exactly the non-deleted transactions the actor itself added;
an actor with owner-level reach (no membership grants at all, or holding
an `owner` grant) sees every non-deleted transaction of each listed event.
The listed events are exactly the non-deleted events owned by the actor or
by any owner the actor holds a grant under. -/
theorem c8_getEvents_visibility (st : Store) (user : Nat) :
    ((st.grants.filter (fun g => g.member_id == user) ≠ [] ∧
      (∀ g ∈ st.grants.filter (fun g => g.member_id == user), g.permission ≠ Perm.owner)) →
      ∀ e ts, (e, ts) ∈ getEvents st user →
        ∀ t, t ∈ ts ↔ (t ∈ st.txns ∧ t.event_id = e.id ∧ t.deleted_at = none
            ∧ t.added_by = some user))
    ∧ ((st.grants.filter (fun g => g.member_id == user) = [] ∨
        (∃ g ∈ st.grants.filter (fun g => g.member_id == user), g.permission = Perm.owner)) →
      ∀ e ts, (e, ts) ∈ getEvents st user →
        ∀ t, t ∈ ts ↔ (t ∈ st.txns ∧ t.event_id = e.id ∧ t.deleted_at = none))
    ∧ (∀ e, e ∈ (getEvents st user).map Prod.fst ↔
        (e ∈ st.events ∧ e.is_deleted = false ∧
          (e.user_id = user ∨ ∃ g ∈ st.grants, g.member_id = user ∧ g.owner_id = e.user_id))) := by
  refine ⟨?_, ?_, ?_⟩
  · rintro ⟨hne, hnoowner⟩ e ts hmem t
    have h3 : ((st.grants.filter (fun g => g.member_id == user)).filter
        (fun g => g.permission == Perm.owner)) = [] := by
      rw [List.filter_eq_nil_iff]
      intro g hg
      simpa using hnoowner g hg
    have hOwner : ((st.grants.filter (fun g => g.member_id == user)).isEmpty
        || (st.grants.filter (fun g => g.member_id == user)).any
            (fun g => g.permission == Perm.owner)
        || !(((st.grants.filter (fun g => g.member_id == user)).filter
              (fun g => g.permission == Perm.owner)).map (fun g => g.owner_id)).isEmpty)
          = false := by
      rw [List.isEmpty_eq_false.mpr hne, h3]
      rw [List.any_eq_false.mpr (fun g hg => by simp [hnoowner g hg])]
      rfl
    unfold getEvents at hmem
    simp only [hOwner, Bool.false_eq_true, if_false, Bool.false_or] at hmem
    rw [List.mem_map] at hmem
    obtain ⟨e0, he0, heq⟩ := hmem
    simp only [Prod.mk.injEq] at heq
    obtain ⟨rfl, rfl⟩ := heq
    have hin := List.mem_map_of_mem (fun e => e.id) he0
    constructor
    · intro ht
      simp only [List.mem_filter, Bool.and_eq_true, beq_iff_eq] at ht
      tauto
    · rintro ⟨htm, hev, hdel, hadd⟩
      simp only [List.mem_filter, Bool.and_eq_true, beq_iff_eq, List.elem_iff]
      have hin2 := hin
      dsimp only at hin2
      rw [← hev] at hin2
      tauto
  · intro hreach e ts hmem t
    have hOwner : ((st.grants.filter (fun g => g.member_id == user)).isEmpty
        || (st.grants.filter (fun g => g.member_id == user)).any
            (fun g => g.permission == Perm.owner)
        || !(((st.grants.filter (fun g => g.member_id == user)).filter
              (fun g => g.permission == Perm.owner)).map (fun g => g.owner_id)).isEmpty)
          = true := by
      rcases hreach with hnil | ⟨g, hg, hgo⟩
      · rw [hnil]
        rfl
      · have hany : (st.grants.filter (fun g => g.member_id == user)).any
            (fun g => g.permission == Perm.owner) = true := by
          rw [List.any_eq_true]
          exact ⟨g, hg, by simp [hgo]⟩
        rw [hany]
        simp
    unfold getEvents at hmem
    simp only [hOwner, if_true, Bool.true_or] at hmem
    rw [List.mem_map] at hmem
    obtain ⟨e0, he0, heq⟩ := hmem
    simp only [Prod.mk.injEq] at heq
    obtain ⟨rfl, rfl⟩ := heq
    have hin := List.mem_map_of_mem (fun e => e.id) he0
    constructor
    · intro ht
      simp only [List.mem_filter, Bool.and_eq_true, beq_iff_eq] at ht
      tauto
    · rintro ⟨htm, hev, hdel⟩
      simp only [List.mem_filter, Bool.and_eq_true, beq_iff_eq, List.elem_iff]
      have hin2 := hin
      dsimp only at hin2
      rw [← hev] at hin2
      tauto
  · intro e
    unfold getEvents
    constructor
    · intro hmem
      simp only [List.map_map] at hmem
      rw [List.mem_map] at hmem
      obtain ⟨e0, he0, heq⟩ := hmem
      have he0e : e0 = e := heq
      subst he0e
      rw [List.mem_filter] at he0
      obtain ⟨hm, hp⟩ := he0
      simp only [Bool.and_eq_true, Bool.or_eq_true, beq_iff_eq, List.elem_iff] at hp
      refine ⟨hm, hp.2, ?_⟩
      rcases hp.1 with h | h
      · exact Or.inl h
      · rw [List.mem_map] at h
        obtain ⟨g, hg, hgo⟩ := h
        rw [List.mem_filter] at hg
        refine Or.inr ⟨g, hg.1, ?_, hgo⟩
        simpa using hg.2
    · rintro ⟨hm, hdel, hacc⟩
      simp only [List.map_map]
      rw [List.mem_map]
      refine ⟨e, ?_, rfl⟩
      rw [List.mem_filter]
      refine ⟨hm, ?_⟩
      simp only [Bool.and_eq_true, Bool.or_eq_true, beq_iff_eq, List.elem_iff]
      refine ⟨?_, hdel⟩
      rcases hacc with h | ⟨g, hg, hgm, hgo⟩
      · exact Or.inl h
      · refine Or.inr ?_
        rw [List.mem_map]
        exact ⟨g, List.mem_filter.mpr ⟨hg, by simpa using hgm⟩, hgo⟩

/-- Witness for C8 at the concrete store: member 2 (write grant, no owner
grant) sees event 1 with an empty transaction list — transaction 1 was
added by user 1 — while main owner 1 sees the full transaction list. -/
theorem c8_getEvents_visibility_witness :
    (wTxn ∈ ([] : List Txn) ↔ (wTxn ∈ wStore.txns ∧ wTxn.event_id = wEvent.id
        ∧ wTxn.deleted_at = none ∧ wTxn.added_by = some 2))
    ∧ (wTxn ∈ [wTxn] ↔ (wTxn ∈ wStore.txns ∧ wTxn.event_id = wEvent.id
        ∧ wTxn.deleted_at = none)) := by
  constructor
  · exact (c8_getEvents_visibility wStore 2).1 ⟨by decide, by decide⟩ wEvent [] (by decide) wTxn
  · exact (c8_getEvents_visibility wStore 1).2.1 (Or.inl (by decide)) wEvent [wTxn]
      (by decide) wTxn
